import Mathlib

/-!
Verification development for the dials refinement/scaling repository.

Shallow embedding of:
* `dials/algorithms/scaling/ScalerFactory.py` (scaler factories),
* `dials/algorithms/integration/ssx_integrate.py` (`OutputCollector`),
* the refinement regression test
  `test/algorithms/refinement/tst_refinement_regression.py` (recorded
  engine outcomes), and
* the model-parameterisation / observation-filtering / target-function /
  refinement-engine subsystem described by the specification, whose
  implementation files are not part of the source tree here; those
  definitions are modelled from the spec and marked as such.

All machine floats of the source are embedded as exact rationals.
-/

namespace Dials

/-! ## ScalerFactory.py -/

/-- A scaling model attached to an experiment, as read by
`ScalerFactory.py`: its extension identifier `id_` and the
`is_scaled` flag inspected by `Factory.is_scaled`. -/
structure ScalingModel where
  id_ : String
  is_scaled : Bool
deriving DecidableEq

/-- The part of an experiment that `ScalerFactory.py` reads: its
`scaling_model`. -/
structure Experiment where
  scaling_model : ScalingModel
deriving DecidableEq

/-- The part of `params` that `Factory.create` reads:
`params.scaling_options.target`. -/
structure ScalingOptions where
  target : Bool

/-- Parameters passed to the factories; only `scaling_options` is read. -/
structure Params where
  scaling_options : ScalingOptions

/-- One registered entry point of the `dxtbx.scaling_model_ext` group:
its `name` and the scaler factory obtained by `entry_point.load().scaler()`,
which the source then calls as
`scalerfactory(params, experiment, reflection, scaled_id)`.
`ρ` is the reflection-table type and `σ` the single-scaler type. -/
structure EntryPoint (ρ σ : Type) where
  name : String
  scaler : Params → Experiment → ρ → Nat → σ

/-- The scaler returned by `Factory.create`: a single scaler, a
`MultiScaler` over single scalers, or a `TargetScaler` holding the scaled
and unscaled single scalers. -/
inductive Scaler (σ : Type) where
  | single (s : σ)
  | multi (ss : List σ)
  | target (scaled : List σ) (unscaled : List σ)
deriving DecidableEq

/-- `SingleScalerFactory.create`: scan the registered
`dxtbx.scaling_model_ext` entry points in order and return the scaler of
the first whose name equals the experiment's scaling-model id; reaching
the end of the loop hits `assert 0`, embedded as an error. -/
def SingleScalerFactory.create {ρ σ : Type} (eps : List (EntryPoint ρ σ))
    (params : Params) (experiment : Experiment) (reflection : ρ)
    (scaled_id : Nat) : Except String σ :=
  match eps.find? (fun e => e.name == experiment.scaling_model.id_) with
  | some e => .ok (e.scaler params experiment reflection scaled_id)
  | none => .error "Unable to find Scaler in dials.extensions.scaling_model_ext"

/-- `Factory.is_scaled`: one boolean per experiment, true when its
scaling model reports `is_scaled`. -/
def Factory.is_scaled (experiments : List Experiment) : List Bool :=
  experiments.map (fun e => e.scaling_model.is_scaled)

/-- `MultiScalerFactory.create`: a single scaler per (reflection,
experiment) pair with `scaled_id = i`, wrapped in a `MultiScaler`.
A failed single-scaler lookup propagates (the Python assertion would
abort the whole call). -/
def MultiScalerFactory.create {ρ σ : Type} (eps : List (EntryPoint ρ σ))
    (params : Params) (experiments : List Experiment) (reflections : List ρ) :
    Except String (Scaler σ) := do
  let pairs := (reflections.zip experiments).enum
  let singles ← pairs.mapM (fun p =>
    SingleScalerFactory.create eps params p.2.2 p.2.1 p.1)
  return .multi singles

/-- Loop body of `TargetScalerFactory.create`: sort the indexed
reflection tables into scaled and unscaled single scalers according to
`is_scaled_list`. -/
def targetSortScalers {ρ σ : Type} (eps : List (EntryPoint ρ σ))
    (params : Params) (experiments : List Experiment)
    (is_scaled_list : List Bool) :
    List (Nat × ρ) → Except String (List σ × List σ)
  | [] => .ok ([], [])
  | (i, r) :: rest => do
      let e := experiments.getD i ⟨⟨"", false⟩⟩
      let s ← SingleScalerFactory.create eps params e r i
      let (sc, un) ← targetSortScalers eps params experiments is_scaled_list rest
      if is_scaled_list.getD i false then
        return (s :: sc, un)
      else
        return (sc, s :: un)

/-- `TargetScalerFactory.create`: split the datasets into already-scaled
and unscaled according to `is_scaled_list`, creating a single scaler with
`scaled_id = i` for each, and wrap them in a `TargetScaler`. -/
def TargetScalerFactory.create {ρ σ : Type} (eps : List (EntryPoint ρ σ))
    (params : Params) (experiments : List Experiment) (reflections : List ρ)
    (is_scaled_list : List Bool) : Except String (Scaler σ) := do
  let (sc, un) ← targetSortScalers eps params experiments is_scaled_list
    reflections.enum
  return .target sc un

/-- `Factory.create`: one reflection table goes to
`SingleScalerFactory`; otherwise targeted scaling when requested and only
some datasets are scaled; otherwise a `MultiScaler` when there are
several tables; otherwise (an empty list) `assert 0`, embedded as an
error. Indexing `experiments[0]` on an empty experiment list is the
Python `IndexError`, also embedded as an error. -/
def Factory.create {ρ σ : Type} (eps : List (EntryPoint ρ σ))
    (params : Params) (experiments : List Experiment) (reflections : List ρ) :
    Except String (Scaler σ) :=
  if reflections.length == 1 then
    match experiments.head?, reflections.head? with
    | some e, some r => (SingleScalerFactory.create eps params e r 0).map .single
    | _, _ => .error "IndexError"
  else
    let is_scaled_list := Factory.is_scaled experiments
    let n_scaled := is_scaled_list.count true
    if params.scaling_options.target &&
        decide (n_scaled < reflections.length) && decide (0 < n_scaled) then
      TargetScalerFactory.create eps params experiments reflections is_scaled_list
    else if 1 < reflections.length then
      MultiScalerFactory.create eps params experiments reflections
    else
      .error "no reflection tables found to create the scaler"

/-! ## ssx_integrate.py: OutputCollector -/

/-- The entries of `OutputCollector.data` touched by
`collect_after_refinement`; `none` models the key being absent from the
dict. -/
structure CollectorData where
  initial_rmsd : Option ℚ
  final_rmsd : Option ℚ
deriving DecidableEq

/-- The `data` dict of a fresh `OutputCollector`: empty. -/
def CollectorData.empty : CollectorData := ⟨none, none⟩

/-- `OutputCollector.collect_after_refinement`, with the input reduced to
the list `refiner_output[-1][0]["rmsd"]` it reads: writes
`initial_rmsd` from `rmsd[0]` only when the key is absent, and always
overwrites `final_rmsd` with `rmsd[-1]`. Indexing an empty list is the
Python `IndexError`, modelled as `none`. -/
def collect_after_refinement (st : CollectorData) (rmsd : List ℚ) :
    Option CollectorData :=
  match rmsd.head?, rmsd.getLast? with
  | some first, some last =>
      some { initial_rmsd := match st.initial_rmsd with
               | none => some first
               | some v => some v,
             final_rmsd := some last }
  | _, _ => none

/-- A sequence of `collect_after_refinement` calls on one collector,
each call carrying its `refiner_output[-1][0]["rmsd"]` list. -/
def runCollects : CollectorData → List (List ℚ) → Option CollectorData
  | st, [] => some st
  | st, c :: cs =>
      match collect_after_refinement st c with
      | some st' => runCollects st' cs
      | none => none

/-! ## Parameterisation (spec-modelled) -/

/-- Modelled from the spec: a `Parameterisation` wraps one physical
sub-model as an ordered sequence of parameter values with a parallel
boolean mask marking parameters as fixed (excluded from the free
vector); the concrete parameterisation classes
(`DetectorParameterisationSinglePanel` etc.) are not under the source
tree here. -/
structure Parameterisation where
  values : List ℚ
  fixedMask : List Bool
deriving DecidableEq

/-- The free entries of a value list under a fixed mask, in order. -/
def getFreeAux : List ℚ → List Bool → List ℚ
  | [], _ => []
  | _ :: _, [] => []
  | v :: vs, f :: fs => if f then getFreeAux vs fs else v :: getFreeAux vs fs

/-- Modelled from the spec: `get_free_parameters` returns the values of
the not-fixed entries, in order. -/
def get_free_parameters (p : Parameterisation) : List ℚ :=
  getFreeAux p.values p.fixedMask

/-- Replace the free entries of a value list, in order, by the supplied
values; fixed entries are untouched. -/
def setFreeAux : List ℚ → List Bool → List ℚ → List ℚ
  | [], _, _ => []
  | vs, [], _ => vs
  | v :: vs, f :: fs, ws =>
      if f then v :: setFreeAux vs fs ws
      else
        match ws with
        | w :: ws' => w :: setFreeAux vs fs ws'
        | [] => v :: setFreeAux vs fs []

/-- The free-parameter count: the number of not-fixed entries. -/
def freeCount (p : Parameterisation) : Nat :=
  (get_free_parameters p).length

/-- Modelled from the spec: `set_free_parameters` fails with
`DimensionMismatch` if the supplied length differs from the
free-parameter count, and otherwise writes the supplied values into the
not-fixed entries, reconstructing the underlying model state exactly. -/
def set_free_parameters (p : Parameterisation) (ws : List ℚ) :
    Except String Parameterisation :=
  if ws.length = freeCount p then
    .ok { values := setFreeAux p.values p.fixedMask ws, fixedMask := p.fixedMask }
  else
    .error "DimensionMismatch"

/-! ## ObservationSet / outlier filtering (spec-modelled) -/

/-- Modelled from the spec: an `Observation` holds per-dimension
residual information and a mutable inclusion flag; the
`ReflectionManager` class is not under the source tree here. -/
structure Observation where
  residual : List ℚ
  active : Bool
deriving DecidableEq

/-- Observations as constructed at manager construction: all active. -/
def mkObservations (rs : List (List ℚ)) : List Observation :=
  rs.map (fun r => { residual := r, active := true })

/-- Insert into a sorted list of rationals. -/
def insertSorted (x : ℚ) : List ℚ → List ℚ
  | [] => [x]
  | y :: ys => if x ≤ y then x :: y :: ys else y :: insertSorted x ys

/-- Sort a list of rationals ascending. -/
def sortQ (l : List ℚ) : List ℚ := l.foldr insertSorted []

/-- Median and interquartile range of a sample, by sorted-order ranks
(the spec leaves the exact quartile formula as a configurable domain
default). -/
def medianIqr (l : List ℚ) : ℚ × ℚ :=
  let s := sortQ l
  let n := l.length
  (s.getD (n / 2) 0, s.getD (3 * n / 4) 0 - s.getD (n / 4) 0)

/-- Per-dimension (median, IQR) statistics of the residual distribution
of an observation list. -/
def dimStats (obs : List Observation) : List (ℚ × ℚ) :=
  let nDims := (obs.head?.map (fun o => o.residual.length)).getD 0
  (List.range nDims).map (fun d => medianIqr (obs.map (fun o => o.residual.getD d 0)))

/-- An observation is an outlier when some residual dimension lies
beyond `median ± multiplier * IQR` for that dimension. -/
def isOutlier (m : ℚ) (stats : List (ℚ × ℚ)) (r : List ℚ) : Bool :=
  (r.zip stats).any (fun p =>
    decide (p.1 < p.2.1 - m * p.2.2) || decide (p.2.1 + m * p.2.2 < p.1))

/-- Modelled from the spec: `filter_outliers` with a null
`iqr_multiplier` performs no filtering; with a finite multiplier it
marks observations beyond `median ± multiplier * IQR` (in any residual
dimension) as rejected. -/
def filter_outliers (iqr_multiplier : Option ℚ) (obs : List Observation) :
    List Observation :=
  match iqr_multiplier with
  | none => obs
  | some m =>
      let stats := dimStats obs
      obs.map (fun o => { o with active := o.active && !(isOutlier m stats o.residual) })

/-- Modelled from the spec: `to_working_set` returns the active
observations in stable input order. -/
def to_working_set (obs : List Observation) : List Observation :=
  obs.filter (fun o => o.active)

/-- The number of active observations. -/
def countActive (obs : List Observation) : Nat :=
  (to_working_set obs).length

/-! ## TargetFunction (spec-modelled) -/

/-- Modelled from the spec: `achieved(thresholds)` is true iff every
RMSD dimension is at most its configured threshold; the class
`LeastSquaresPositionalResidualWithRmsdCutoff` is not under the source
tree here. Thresholds are externally supplied configuration. -/
def achieved (rmsds thresholds : List ℚ) : Bool :=
  (rmsds.zip thresholds).all (fun p => decide (p.1 ≤ p.2))

/-! ## RefinementEngine state machine (spec-modelled) -/

/-- Terminal and intermediate run states of the refinement engine. -/
inductive EngineStatus where
  | notStarted
  | running
  | converged
  | maxIterationsReached
  | failed
deriving DecidableEq

/-- One per-iteration history record: parameter-vector snapshot and the
RMSD vector after the accepted step. -/
structure HistoryEntry where
  params : List ℚ
  rmsds : List ℚ
deriving DecidableEq

/-- The engine's run state: current parameter vector, iteration counter,
append-only history, status. -/
structure EngineState where
  params : List ℚ
  nSteps : Nat
  history : List HistoryEntry
  status : EngineStatus
deriving DecidableEq

/-- Componentwise addition of a step to a parameter vector. -/
def zipAdd (ps dp : List ℚ) : List ℚ :=
  (ps.zip dp).map (fun p => p.1 + p.2)

/-- Modelled from the spec: one engine iteration. The solver proposes a
step from the current parameter vector, or fails
(`SingularNormalEquations` / line-search exhaustion), which is fatal and
transitions the run to `failed` while preserving the current parameter
vector and history. An accepted step is applied, the target re-evaluated
and a history entry appended; the run converges when `achieved` holds. -/
def engineStep (solver : List ℚ → Option (List ℚ)) (rmsds : List ℚ → List ℚ)
    (thresholds : List ℚ) (st : EngineState) : EngineState :=
  match solver st.params with
  | none => { st with status := .failed }
  | some dp =>
      let newp := zipAdd st.params dp
      let r := rmsds newp
      let st' : EngineState :=
        { params := newp, nSteps := st.nSteps + 1,
          history := st.history ++ [⟨newp, r⟩], status := st.status }
      if achieved r thresholds then { st' with status := .converged } else st'

/-- Modelled from the spec: the iteration loop, bounded by the remaining
iteration budget; an exhausted budget terminates in
`maxIterationsReached`, and a `failed` or `converged` step ends the run. -/
def engineLoop (solver : List ℚ → Option (List ℚ)) (rmsds : List ℚ → List ℚ)
    (thresholds : List ℚ) : Nat → EngineState → EngineState
  | 0, st => { st with status := .maxIterationsReached }
  | n + 1, st =>
      let st' := engineStep solver rmsds thresholds st
      match st'.status with
      | .failed => st'
      | .converged => st'
      | _ => engineLoop solver rmsds thresholds n st'

/-- Modelled from the spec: a whole refinement run from a starting
parameter vector with a configured iteration cap. -/
def runEngine (solver : List ℚ → Option (List ℚ)) (rmsds : List ℚ → List ℚ)
    (thresholds : List ℚ) (maxIterations : Nat) (p0 : List ℚ) : EngineState :=
  engineLoop solver rmsds thresholds maxIterations
    { params := p0, nSteps := 0, history := [], status := .running }

/-! ## Gauss-Newton on a one-parameter linear model (spec-modelled) -/

/-- Modelled from the spec: the Gauss-Newton step for a one-free-parameter
linear model predicting `y = p * x` over observations `(x, y)`: the
normal equations `(Σ x²) Δp = Σ x (y - p x)` solved exactly; a singular
information matrix (`Σ x² = 0`, e.g. no active observations) makes the
symmetric solve fail (`SingularNormalEquations`). -/
def gnSolveLinear (data : List (ℚ × ℚ)) (params : List ℚ) : Option (List ℚ) :=
  let p := params.headD 0
  let sxx := (data.map (fun d => d.1 * d.1)).sum
  if sxx = 0 then none
  else some [(data.map (fun d => d.1 * (d.2 - p * d.1))).sum / sxx]

/-- Modelled from the spec: the single per-dimension residual statistic
of the linear model, as the mean squared residual over the observations
(the squared RMSD; squaring both sides of the threshold comparison is
order-preserving and keeps the embedding in exact rationals). -/
def msdLinear (data : List (ℚ × ℚ)) (params : List ℚ) : List ℚ :=
  let p := params.headD 0
  [((data.map (fun d => (d.2 - p * d.1) ^ 2)).sum) / (data.length : ℚ)]

/-! ## Recorded outcomes of tst_refinement_regression.py -/

/-- The outcome a refinement run as recorded by the regression test's
assertions: the `achieved()` flag, `get_num_steps()`, and the final
per-dimension RMSD vector checked by `approx_equal`. -/
structure RecordedRun where
  achievedFlag : Bool
  numSteps : Nat
  rmsds : List ℚ
deriving DecidableEq

/-- The Gauss-Newton (`GaussNewtonIterations`) run of
`tst_refinement_regression.py`: the test asserts `mytarget.achieved()`,
`refiner.get_num_steps() == 1` and the final RMSDs
`(0.005082333635071939, 0.004212919308923247, 8.976084121839415e-05)`. -/
def gaussNewtonRegressionRun : RecordedRun :=
  { achievedFlag := true, numSteps := 1,
    rmsds := [0.005082333635071939, 0.004212919308923247, 8.976084121839415e-5] }

/-- The LBFGS-with-curvatures (`LBFGScurvs`) run of
`tst_refinement_regression.py`: the test asserts `mytarget.achieved()`,
`refiner.get_num_steps() == 9` and the final RMSDs
`(0.0564093680961448, 0.03432636086464995, 0.0003569908632122291)`. -/
def lbfgsRegressionRun : RecordedRun :=
  { achievedFlag := true, numSteps := 9,
    rmsds := [0.0564093680961448, 0.03432636086464995, 0.0003569908632122291] }

/-- Agreement of two RMSD vectors to within a relative tolerance, as the
spec words it: same length, and componentwise
`|a - b| ≤ tol * max |a| |b|`. -/
def rmsdsRelAgree (tol : ℚ) (as bs : List ℚ) : Bool :=
  (as.length == bs.length) &&
    (as.zip bs).all (fun p => decide (|p.1 - p.2| ≤ tol * max |p.1| |p.2|))

/-! ## Helper lemmas -/

lemma notRelAgreeAux (tol a b : ℚ) (ha : 0 < a) (hab : a ≤ b) (h : tol * b < b - a) :
    ¬(|a - b| ≤ tol * max |a| |b|) := by
  have hb : 0 < b := lt_of_lt_of_le ha hab
  rw [abs_sub_comm, abs_of_nonneg (sub_nonneg.2 hab), abs_of_pos ha, abs_of_pos hb,
    max_eq_right hab]
  exact not_le.2 h

lemma collect_eq_some {st st' : CollectorData} {c : List ℚ}
    (h : collect_after_refinement st c = some st') :
    ∃ f l, c.head? = some f ∧ c.getLast? = some l ∧
      st'.initial_rmsd = some ((st.initial_rmsd).getD f) ∧ st'.final_rmsd = some l := by
  unfold collect_after_refinement at h
  cases hh : c.head? with
  | none => rw [hh] at h; exact absurd h (by simp)
  | some f =>
      cases hl : c.getLast? with
      | none => rw [hh, hl] at h; exact absurd h (by simp)
      | some l =>
          rw [hh, hl] at h
          refine ⟨f, l, rfl, rfl, ?_, ?_⟩ <;>
            cases hi : st.initial_rmsd <;>
              simp [hi] at h <;> simp [← h]

lemma collect_ne_nil (st : CollectorData) {c : List ℚ} (hc : c ≠ []) :
    ∃ st', collect_after_refinement st c = some st' := by
  match c with
  | [] => exact absurd rfl hc
  | x :: xs =>
      unfold collect_after_refinement
      cases hl : (x :: xs).getLast? with
      | none => simp at hl
      | some l => exact ⟨_, rfl⟩

lemma runCollects_initial {cs : List (List ℚ)} :
    ∀ {st st' : CollectorData} {v : ℚ}, st.initial_rmsd = some v →
      runCollects st cs = some st' → st'.initial_rmsd = some v := by
  induction cs with
  | nil =>
      intro st st' v h hr
      unfold runCollects at hr
      cases hr; exact h
  | cons c cs ih =>
      intro st st' v h hr
      unfold runCollects at hr
      cases hcol : collect_after_refinement st c with
      | none => rw [hcol] at hr; exact absurd hr (by simp)
      | some st2 =>
          rw [hcol] at hr
          obtain ⟨f, l, _, _, hi, _⟩ := collect_eq_some hcol
          rw [h] at hi
          exact ih (by simpa using hi) hr

lemma runCollects_final {cs : List (List ℚ)} :
    ∀ {st st' : CollectorData}, runCollects st cs = some st' →
      st'.final_rmsd = (match cs.getLast? with
        | some c => c.getLast?
        | none => st.final_rmsd) := by
  induction cs with
  | nil =>
      intro st st' hr
      unfold runCollects at hr
      cases hr; rfl
  | cons c cs ih =>
      intro st st' hr
      unfold runCollects at hr
      cases hcol : collect_after_refinement st c with
      | none => rw [hcol] at hr; exact absurd hr (by simp)
      | some st2 =>
          rw [hcol] at hr
          obtain ⟨f, l, _, hl, _, hf⟩ := collect_eq_some hcol
          have hrec := ih hr
          cases hcs : cs.getLast? with
          | none =>
              have hnil : cs = [] := by
                cases cs with
                | nil => rfl
                | cons a as => simp [List.getLast?_concat] at hcs
              subst hnil
              simpa [hf, hl] using hrec
          | some c2 =>
              cases cs with
              | nil => exact absurd hcs (by simp)
              | cons a as =>
                  rw [List.getLast?_cons_cons, hcs]
                  simpa [hcs] using hrec

lemma runCollects_ok {cs : List (List ℚ)} :
    ∀ (st : CollectorData), (∀ c ∈ cs, c ≠ []) →
      ∃ st', runCollects st cs = some st' := by
  induction cs with
  | nil => intro st _; exact ⟨st, rfl⟩
  | cons c cs ih =>
      intro st h
      obtain ⟨st2, h2⟩ := collect_ne_nil st (h c (by simp))
      obtain ⟨st', h'⟩ := ih st2 (fun x hx => h x (by simp [hx]))
      exact ⟨st', by unfold runCollects; rw [h2]; exact h'⟩

lemma countActive_map_and (c : Observation → Bool) :
    ∀ (obs : List Observation),
      countActive (obs.map (fun o => { o with active := o.active && c o })) ≤
        countActive obs := by
  intro obs
  induction obs with
  | nil => simp [countActive, to_working_set]
  | cons o t ih =>
      simp only [List.map_cons, countActive, to_working_set, List.filter_cons]
      cases ho : o.active with
      | false =>
          simpa [ho, countActive, to_working_set] using ih
      | true =>
          cases hc : c o with
          | false =>
              simp only [ho, hc, Bool.and_false]
              simp only [show (false = true) = False by simp, if_neg (not_false),
                if_pos rfl, List.length_cons]
              exact Nat.le_succ_of_le (by simpa [countActive, to_working_set] using ih)
          | true =>
              simp only [ho, hc, Bool.and_true, if_pos, List.length_cons]
              simpa [countActive, to_working_set] using ih

lemma setget_aux : ∀ (vs : List ℚ) (fs : List Bool),
    setFreeAux vs fs (getFreeAux vs fs) = vs := by
  intro vs
  induction vs with
  | nil => intro fs; cases fs <;> rfl
  | cons v vs ih =>
      intro fs
      cases fs with
      | nil => rfl
      | cons f fs =>
          cases f with
          | true => simp [getFreeAux, setFreeAux, ih]
          | false => simp [getFreeAux, setFreeAux, ih]

lemma set_set_aux : ∀ (vs : List ℚ) (fs : List Bool) (ws : List ℚ),
    setFreeAux (setFreeAux vs fs ws) fs (getFreeAux vs fs) = vs := by
  intro vs
  induction vs with
  | nil => intro fs ws; cases fs <;> rfl
  | cons v vs ih =>
      intro fs ws
      cases fs with
      | nil => rfl
      | cons f fs =>
          cases f with
          | true => simp [getFreeAux, setFreeAux, ih]
          | false =>
              cases ws with
              | nil => simp [getFreeAux, setFreeAux, ih]
              | cons w ws => simp [getFreeAux, setFreeAux, ih]

lemma getFree_set_len : ∀ (vs : List ℚ) (fs : List Bool) (ws : List ℚ),
    (getFreeAux (setFreeAux vs fs ws) fs).length = (getFreeAux vs fs).length := by
  intro vs
  induction vs with
  | nil => intro fs ws; cases fs <;> rfl
  | cons v vs ih =>
      intro fs ws
      cases fs with
      | nil => rfl
      | cons f fs =>
          cases f with
          | true => simp [getFreeAux, setFreeAux, ih]
          | false =>
              cases ws with
              | nil => simp [getFreeAux, setFreeAux, ih]
              | cons w ws => simp [getFreeAux, setFreeAux, ih]

/-- The synthetic dataset of the convergence scenario: observations
generated from a known true parameter `t` of the linear model
`y = t * x`. -/
def linearData (xs : List ℚ) (t : ℚ) : List (ℚ × ℚ) :=
  xs.map (fun x => (x, t * x))

lemma sum_lin (xs : List ℚ) (t p : ℚ) :
    (xs.map (fun x => x * (t * x - p * x))).sum =
      (t - p) * (xs.map (fun x => x * x)).sum := by
  induction xs with
  | nil => simp
  | cons x xs ih =>
      simp only [List.map_cons, List.sum_cons, ih]
      ring

lemma gnSolve_eq (xs : List ℚ) (t p0 : ℚ)
    (hx : (xs.map (fun x => x * x)).sum ≠ 0) :
    gnSolveLinear (linearData xs t) [p0] = some [t - p0] := by
  unfold gnSolveLinear linearData
  simp only [List.map_map, Function.comp_def, List.headD]
  rw [if_neg hx, sum_lin, mul_div_cancel_right₀ _ hx]

lemma msd_zero (xs : List ℚ) (t : ℚ) :
    msdLinear (linearData xs t) [t] = [0] := by
  unfold msdLinear linearData
  simp only [List.map_map, Function.comp_def, List.headD]
  rw [List.sum_eq_zero, zero_div]
  intro x hx
  simp only [List.mem_map] at hx
  obtain ⟨y, _, rfl⟩ := hx
  ring

lemma engineStep_gn (xs : List ℚ) (t p0 τ : ℚ)
    (hx : (xs.map (fun x => x * x)).sum ≠ 0) (hτ : 0 ≤ τ) :
    engineStep (gnSolveLinear (linearData xs t)) (msdLinear (linearData xs t)) [τ]
        { params := [p0], nSteps := 0, history := [], status := .running } =
      { params := [t], nSteps := 1, history := [⟨[t], [0]⟩],
        status := .converged } := by
  unfold engineStep
  rw [gnSolve_eq xs t p0 hx]
  have hz : zipAdd [p0] [t - p0] = [t] := by
    simp [zipAdd]
  dsimp only
  rw [hz, msd_zero]
  have hach : achieved [0] [τ] = true := by
    simp [achieved, hτ]
  rw [if_pos hach]
  norm_num

/-! ## Claim theorems -/

/-- Claim C1, counterexample: on the regression dataset of
`tst_refinement_regression.py`, the two engine variants reach the same
`achieved()` outcome, but their recorded final per-dimension RMSD
vectors do NOT agree to within `1e-6` relative tolerance, refuting the
claimed identical final-state semantics. -/
theorem c1_rmsd_agreement_counterexample :
    gaussNewtonRegressionRun.achievedFlag = lbfgsRegressionRun.achievedFlag ∧
    rmsdsRelAgree (1 / 1000000) gaussNewtonRegressionRun.rmsds lbfgsRegressionRun.rmsds
      = false := by
  refine ⟨rfl, ?_⟩
  rw [Bool.eq_false_iff]
  intro hcontra
  simp only [rmsdsRelAgree, gaussNewtonRegressionRun, lbfgsRegressionRun,
    Bool.and_eq_true, List.all_eq_true, decide_eq_true_eq] at hcontra
  exact notRelAgreeAux (1 / 1000000) 0.005082333635071939 0.0564093680961448
    (by norm_num) (by norm_num) (by norm_num)
    (hcontra.2 (0.005082333635071939, 0.0564093680961448) (by simp))

/-- Claim C1, amended: both variants reach the same `achieved()` outcome
on the regression dataset, but their iteration counts differ and their
final RMSD vectors do not agree even to within 10% relative tolerance —
the Gauss-Newton final RMSDs are strictly smaller in every dimension. -/
theorem c1_variants_same_achieved_different_rmsds :
    gaussNewtonRegressionRun.achievedFlag = lbfgsRegressionRun.achievedFlag ∧
    gaussNewtonRegressionRun.numSteps ≠ lbfgsRegressionRun.numSteps ∧
    rmsdsRelAgree (1 / 10) gaussNewtonRegressionRun.rmsds lbfgsRegressionRun.rmsds
      = false ∧
    (gaussNewtonRegressionRun.rmsds.zip lbfgsRegressionRun.rmsds).all
      (fun p => decide (p.1 < p.2)) = true := by
  refine ⟨rfl, by decide, ?_, ?_⟩
  · rw [Bool.eq_false_iff]
    intro hcontra
    simp only [rmsdsRelAgree, gaussNewtonRegressionRun, lbfgsRegressionRun,
      Bool.and_eq_true, List.all_eq_true, decide_eq_true_eq] at hcontra
    exact notRelAgreeAux (1 / 10) 0.005082333635071939 0.0564093680961448
      (by norm_num) (by norm_num) (by norm_num)
      (hcontra.2 (0.005082333635071939, 0.0564093680961448) (by simp))
  · simp only [gaussNewtonRegressionRun, lbfgsRegressionRun]
    norm_num

/-- Claim C2: on a synthetic dataset generated from a known true
parameter plus a deliberate offset, the Gauss-Newton variant converges
(`achieved() == true`) back within the configured thresholds within a
bounded iteration count — exactly one step for this purely linear
system, so at most 5. -/
theorem c2_gauss_newton_linear_converges (xs : List ℚ) (t p0 τ : ℚ) (k : ℕ)
    (hx : (xs.map (fun x => x * x)).sum ≠ 0) (hτ : 0 ≤ τ) :
    (runEngine (gnSolveLinear (linearData xs t)) (msdLinear (linearData xs t))
        [τ] (k + 1) [p0]).status = .converged ∧
    (runEngine (gnSolveLinear (linearData xs t)) (msdLinear (linearData xs t))
        [τ] (k + 1) [p0]).nSteps = 1 ∧
    (runEngine (gnSolveLinear (linearData xs t)) (msdLinear (linearData xs t))
        [τ] (k + 1) [p0]).nSteps ≤ 5 ∧
    (runEngine (gnSolveLinear (linearData xs t)) (msdLinear (linearData xs t))
        [τ] (k + 1) [p0]).params = [t] ∧
    achieved (msdLinear (linearData xs t)
      (runEngine (gnSolveLinear (linearData xs t)) (msdLinear (linearData xs t))
        [τ] (k + 1) [p0]).params) [τ] = true := by
  have hrun : runEngine (gnSolveLinear (linearData xs t)) (msdLinear (linearData xs t))
      [τ] (k + 1) [p0] =
      { params := [t], nSteps := 1, history := [⟨[t], [0]⟩],
        status := .converged } := by
    unfold runEngine engineLoop
    rw [engineStep_gn xs t p0 τ hx hτ]
  rw [hrun, msd_zero]
  refine ⟨rfl, rfl, by norm_num, rfl, by simp [achieved, hτ]⟩

/-- Witness for C2: the concrete offset start 100 for true parameter 3
over abscissae [1, 2] converges in one accepted step. -/
theorem c2_gauss_newton_linear_converges_witness :
    (runEngine (gnSolveLinear (linearData [1, 2] 3)) (msdLinear (linearData [1, 2] 3))
        [1] 20 [100]).status = .converged ∧
    (runEngine (gnSolveLinear (linearData [1, 2] 3)) (msdLinear (linearData [1, 2] 3))
        [1] 20 [100]).nSteps ≤ 5 ∧
    (runEngine (gnSolveLinear (linearData [1, 2] 3)) (msdLinear (linearData [1, 2] 3))
        [1] 20 [100]).params = [3] := by
  have h := c2_gauss_newton_linear_converges [1, 2] 3 100 1 19 (by norm_num) (by norm_num)
  exact ⟨h.1, h.2.2.1, h.2.2.2.1⟩

/-- Claim C3: on the same regression dataset the LBFGS-with-curvatures
variant also converges (`achieved()` is asserted true), and its recorded
step count (9) is strictly greater than that of the Gauss-Newton variant
(1). -/
theorem c3_lbfgs_converges_in_more_steps :
    lbfgsRegressionRun.achievedFlag = true ∧
    gaussNewtonRegressionRun.numSteps < lbfgsRegressionRun.numSteps :=
  ⟨rfl, by decide⟩

/-- Claim C4: `achieved(thresholds)` is true iff every per-dimension
RMSD is less than or equal to its configured threshold, for every RMSD
report and every threshold configuration. -/
theorem c4_achieved_iff_every_rmsd_le_threshold (rmsds thresholds : List ℚ) :
    achieved rmsds thresholds = true ↔
      ∀ (i : ℕ) (h1 : i < rmsds.length) (h2 : i < thresholds.length),
        rmsds.get ⟨i, h1⟩ ≤ thresholds.get ⟨i, h2⟩ := by
  unfold achieved
  rw [List.all_eq_true]
  constructor
  · intro hall i h1 h2
    have hz : i < (rmsds.zip thresholds).length := by
      rw [List.length_zip]; omega
    have hmem := List.getElem_mem hz
    have := hall _ hmem
    rw [List.getElem_zip] at this
    simpa using this
  · intro h p hp
    obtain ⟨i, hi, hp⟩ := List.mem_iff_getElem.mp hp
    rw [List.getElem_zip] at hp
    have h1 : i < rmsds.length := by
      rw [List.length_zip] at hi; omega
    have h2 : i < thresholds.length := by
      rw [List.length_zip] at hi; omega
    subst hp
    simpa using h i h1 h2

/-- Witness for C4 at a concrete report and thresholds. -/
theorem c4_achieved_iff_every_rmsd_le_threshold_witness :
    achieved [1, 2] [2, 3] = true ∧
    ([1, 2] : List ℚ).get ⟨0, by decide⟩ ≤ ([2, 3] : List ℚ).get ⟨0, by decide⟩ := by
  have h := (c4_achieved_iff_every_rmsd_le_threshold [1, 2] [2, 3]).mp
    (by decide) 0 (by decide) (by decide)
  exact ⟨by decide, h⟩

/-- Claim C5: with a null `iqr_multiplier` no filtering occurs — every
constructed observation remains active and the working set equals all
observations in stable input order. -/
theorem c5_null_iqr_multiplier_no_filtering (rs : List (List ℚ)) :
    filter_outliers none (mkObservations rs) = mkObservations rs ∧
    (∀ o ∈ filter_outliers none (mkObservations rs), o.active = true) ∧
    to_working_set (filter_outliers none (mkObservations rs)) = mkObservations rs := by
  refine ⟨rfl, ?_, ?_⟩
  · intro o ho
    simp only [filter_outliers, mkObservations] at ho
    obtain ⟨r, _, rfl⟩ := List.mem_map.mp ho
    rfl
  · unfold to_working_set
    apply List.filter_eq_self.mpr
    intro o ho
    simp only [filter_outliers, mkObservations] at ho
    obtain ⟨r, _, rfl⟩ := List.mem_map.mp ho
    rfl

/-- Witness for C5 at a concrete observation list. -/
theorem c5_null_iqr_multiplier_no_filtering_witness :
    filter_outliers none (mkObservations [[1], [2]]) = mkObservations [[1], [2]] ∧
    (Observation.mk [1] true).active = true ∧
    to_working_set (filter_outliers none (mkObservations [[1], [2]])) =
      mkObservations [[1], [2]] := by
  have h := c5_null_iqr_multiplier_no_filtering [[1], [2]]
  exact ⟨h.1, h.2.1 ⟨[1], true⟩ (by simp [filter_outliers, mkObservations]), h.2.2⟩

/-- Claim C6: filtering with a finite `iqr_multiplier` never increases
the active count over the null multiplier, filtering preserves the
observation count and input order positions, and rejection is monotonic:
an observation inactive before filtering stays inactive. -/
theorem c6_filtering_monotone (obs : List Observation) (m : ℚ) :
    countActive (filter_outliers (some m) obs) ≤
      countActive (filter_outliers none obs) ∧
    (filter_outliers (some m) obs).length = obs.length ∧
    (∀ (i : ℕ) (h : i < obs.length)
      (h' : i < (filter_outliers (some m) obs).length),
      (obs.get ⟨i, h⟩).active = false →
      ((filter_outliers (some m) obs).get ⟨i, h'⟩).active = false) := by
  refine ⟨?_, ?_, ?_⟩
  · exact countActive_map_and _ obs
  · simp [filter_outliers]
  · intro i h h' hfalse
    simp only [filter_outliers, List.get_eq_getElem, List.getElem_map] at h' ⊢
    simp only [List.get_eq_getElem] at hfalse
    simp [hfalse]

/-- Witness for C6 at a concrete observation list with an inactive
observation. -/
theorem c6_filtering_monotone_witness :
    countActive (filter_outliers (some 3)
        ([⟨[5], false⟩, ⟨[1], true⟩] : List Observation)) ≤
      countActive (filter_outliers none
        ([⟨[5], false⟩, ⟨[1], true⟩] : List Observation)) ∧
    ((filter_outliers (some 3) ([⟨[5], false⟩, ⟨[1], true⟩] : List Observation)).get
      ⟨0, by simp [filter_outliers]⟩).active = false := by
  have h := c6_filtering_monotone ([⟨[5], false⟩, ⟨[1], true⟩] : List Observation) 3
  exact ⟨h.1, h.2.2 0 (by decide) (by simp [filter_outliers]) rfl⟩

/-- Claim C7: `set_free_parameters (get_free_parameters p)` is a no-op,
and after any successful perturbation, restoring the saved free vector
returns the parameterisation to its original state exactly. -/
theorem c7_set_get_roundtrip (p : Parameterisation) :
    set_free_parameters p (get_free_parameters p) = .ok p ∧
    ∀ (ws : List ℚ) (p' : Parameterisation),
      set_free_parameters p ws = .ok p' →
      set_free_parameters p' (get_free_parameters p) = .ok p := by
  obtain ⟨vs, fs⟩ := p
  constructor
  · unfold set_free_parameters freeCount get_free_parameters
    rw [if_pos rfl]
    simp [setget_aux]
  · intro ws p' h
    unfold set_free_parameters freeCount get_free_parameters at h ⊢
    by_cases hlen : ws.length = (getFreeAux vs fs).length
    · rw [if_pos hlen] at h
      cases h
      rw [if_pos (by simp [getFree_set_len])]
      simp [set_set_aux]
    · rw [if_neg hlen] at h
      exact absurd h (by simp)

/-- Witness for C7: save, perturb and restore a concrete
parameterisation with one fixed and two free entries. -/
theorem c7_set_get_roundtrip_witness :
    set_free_parameters ⟨[1, 2, 3], [true, false, false]⟩
      (get_free_parameters ⟨[1, 2, 3], [true, false, false]⟩) =
      .ok ⟨[1, 2, 3], [true, false, false]⟩ ∧
    set_free_parameters ⟨[1, 5, 6], [true, false, false]⟩
      (get_free_parameters ⟨[1, 2, 3], [true, false, false]⟩) =
      .ok ⟨[1, 2, 3], [true, false, false]⟩ := by
  have h := c7_set_get_roundtrip ⟨[1, 2, 3], [true, false, false]⟩
  exact ⟨h.1, h.2 [5, 6] ⟨[1, 5, 6], [true, false, false]⟩ rfl⟩

/-- Claim C8: a failed solve (singular normal equations) transitions the
run to the `failed` terminal state rather than returning a spurious
step, preserving the last successfully computed parameter vector and the
partial history; in particular the Gauss-Newton linear solver fails on
an empty active-observation set (fewer observations than free
parameters). -/
theorem c8_singular_normal_equations_failed :
    (∀ (solver : List ℚ → Option (List ℚ)) (rmsds : List ℚ → List ℚ)
      (thresholds : List ℚ) (st : EngineState),
      solver st.params = none →
      engineStep solver rmsds thresholds st = { st with status := .failed }) ∧
    (∀ (solver : List ℚ → Option (List ℚ)) (rmsds : List ℚ → List ℚ)
      (thresholds : List ℚ) (k : ℕ) (p0 : List ℚ),
      solver p0 = none →
      runEngine solver rmsds thresholds (k + 1) p0 =
        { params := p0, nSteps := 0, history := [], status := .failed }) ∧
    (∀ p : List ℚ, gnSolveLinear [] p = none) := by
  refine ⟨?_, ?_, ?_⟩
  · intro solver rmsds thresholds st h
    unfold engineStep
    rw [h]
  · intro solver rmsds thresholds k p0 h
    unfold runEngine engineLoop engineStep
    rw [h]
  · intro p
    simp [gnSolveLinear]

/-- Witness for C8: a Gauss-Newton run with zero active observations and
one free parameter terminates failed with the start vector and empty
history preserved. -/
theorem c8_singular_normal_equations_failed_witness :
    runEngine (gnSolveLinear []) (msdLinear []) [1] 10 [5] =
      { params := [5], nSteps := 0, history := [], status := .failed } :=
  c8_singular_normal_equations_failed.2.1 (gnSolveLinear []) (msdLinear []) [1] 9 [5]
    (c8_singular_normal_equations_failed.2.2 [5])

/-- Claim C9: scaler creation is total-or-failing. `Factory.create` on
an empty reflection-table list raises the `assert 0` (no silent partial
result); `SingleScalerFactory.create` raises its assertion when no
registered `dxtbx.scaling_model_ext` entry point's name matches the
experiment's scaling-model id, and returns the first matching factory's
scaler otherwise. -/
theorem c9_scaler_factory_create {ρ σ : Type} :
    (∀ (eps : List (EntryPoint ρ σ)) (params : Params) (experiments : List Experiment),
      Factory.create eps params experiments ([] : List ρ) =
        .error "no reflection tables found to create the scaler") ∧
    (∀ (eps : List (EntryPoint ρ σ)) (params : Params) (experiment : Experiment)
      (reflection : ρ) (i : Nat),
      (∀ e ∈ eps, e.name ≠ experiment.scaling_model.id_) →
      SingleScalerFactory.create eps params experiment reflection i =
        .error "Unable to find Scaler in dials.extensions.scaling_model_ext") ∧
    (∀ (eps : List (EntryPoint ρ σ)) (params : Params) (experiment : Experiment)
      (reflection : ρ) (i : Nat) (e : EntryPoint ρ σ),
      eps.find? (fun e => e.name == experiment.scaling_model.id_) = some e →
      SingleScalerFactory.create eps params experiment reflection i =
        .ok (e.scaler params experiment reflection i)) := by
  refine ⟨?_, ?_, ?_⟩
  · intro eps params experiments
    simp [Factory.create, Factory.is_scaled]
  · intro eps params experiment reflection i h
    rw [SingleScalerFactory.create, List.find?_eq_none.2]
    intro e he
    simpa using h e he
  · intro eps params experiment reflection i e h
    rw [SingleScalerFactory.create, h]

/-- Witness for C9 at concrete entry points and experiments. -/
theorem c9_scaler_factory_create_witness :
    Factory.create ([⟨"KB", fun _ _ _ _ => ()⟩] : List (EntryPoint Unit Unit))
        ⟨⟨false⟩⟩ [⟨⟨"KB", false⟩⟩] ([] : List Unit) =
      .error "no reflection tables found to create the scaler" ∧
    SingleScalerFactory.create ([] : List (EntryPoint Unit Unit)) ⟨⟨false⟩⟩
        ⟨⟨"KB", false⟩⟩ () 0 =
      .error "Unable to find Scaler in dials.extensions.scaling_model_ext" ∧
    SingleScalerFactory.create ([⟨"KB", fun _ _ _ _ => ()⟩] : List (EntryPoint Unit Unit))
        ⟨⟨false⟩⟩ ⟨⟨"KB", false⟩⟩ () 3 = .ok () := by
  refine ⟨c9_scaler_factory_create.1 _ _ _,
    c9_scaler_factory_create.2.1 _ _ _ _ _ (by simp), ?_⟩
  have h := c9_scaler_factory_create.2.2 [⟨"KB", fun _ _ _ _ => ()⟩] ⟨⟨false⟩⟩
    ⟨⟨"KB", false⟩⟩ () 3 ⟨"KB", fun _ _ _ _ => ()⟩ (by simp)
  simpa using h

/-- Claim C10: across any sequence of successful
`collect_after_refinement` calls on a fresh collector, `initial_rmsd` is
written by the first call only and never overwritten, while `final_rmsd`
equals the last RMSD of the most recent call. -/
theorem c10_output_collector_rmsd_bracketing (c0 : List ℚ) (cs : List (List ℚ))
    (h0 : c0 ≠ []) (hcs : ∀ c ∈ cs, c ≠ []) :
    ∃ st, runCollects CollectorData.empty (c0 :: cs) = some st ∧
      st.initial_rmsd = c0.head? ∧
      st.final_rmsd = (match cs.getLast? with
        | some c => c.getLast?
        | none => c0.getLast?) := by
  obtain ⟨st1, h1⟩ := collect_ne_nil CollectorData.empty h0
  obtain ⟨f, l, hf, hl, hi, hfin⟩ := collect_eq_some h1
  obtain ⟨st', h'⟩ := runCollects_ok st1 hcs
  refine ⟨st', by unfold runCollects; rw [h1]; exact h', ?_, ?_⟩
  · have hinit : st1.initial_rmsd = some f := by
      simpa [CollectorData.empty] using hi
    rw [runCollects_initial hinit h', hf]
  · have hrec := runCollects_final h'
    cases hcs2 : cs.getLast? with
    | none =>
        have hnil : cs = [] := by
          cases cs with
          | nil => rfl
          | cons a as => simp [List.getLast?_concat] at hcs2
        subst hnil
        simpa [hfin, hl] using hrec
    | some c2 => simpa [hcs2] using hrec

/-- Witness for C10: three successive calls; `initial_rmsd` keeps the
first call's first RMSD and `final_rmsd` holds the last call's last
RMSD. -/
theorem c10_output_collector_rmsd_bracketing_witness :
    ∃ st, runCollects CollectorData.empty [[1, 2], [3, 4], [5, 6]] = some st ∧
      st.initial_rmsd = some 1 ∧ st.final_rmsd = some 6 := by
  obtain ⟨st, h1, h2, h3⟩ :=
    c10_output_collector_rmsd_bracketing [1, 2] [[3, 4], [5, 6]] (by simp) (by simp)
  exact ⟨st, h1, by simpa using h2, by simpa using h3⟩

end Dials
